import Mathlib

/-!
Verification of the Bet Outcome Resolution Engine of `src/bot.py`.

The Python module drives a grading pipeline for pending sports bets:
`get_pending_bets` scans the ledger, `search_game_result` fetches evidence,
`grade_bet_with_search` / `verify_grade` are two independent LLM grading
passes, `grade_bet` runs the consensus protocol, `update_bet_result` writes
the outcome back, and `grade_command` orchestrates the run.

The shallow embedding below translates that code into Lean.  External
effects (the Tavily search provider and the two LLM calls) are passed in as
explicit oracle arguments: an `Except String _` value stands for "the call
returned this value" or "the call raised this exception", exactly the two
ways the Python `try`/`except` blocks can observe them.  Python strings are
Lean `String`s; `s.lower()`, `s[:n]` and `needle in hay` are embedded by
`strLower`, `strTake` and `containsStr` over the underlying character
lists.  Python dicts produced by JSON parsing are embedded as structures of
`Option` fields, so that `d.get(key, default)` becomes `field.getD default`
and a missing key is `none`.
-/

namespace BetBot

/-- Embedding of Python `s.lower()` (per-character lowering). -/
def strLower (s : String) : String := ⟨s.data.map Char.toLower⟩

/-- Embedding of Python `s[:n]` (first `n` characters). -/
def strTake (s : String) (n : Nat) : String := ⟨s.data.take n⟩

/-- Character-list prefix test (used to embed Python substring search). -/
def listPre : List Char → List Char → Bool
  | [], _ => true
  | _ :: _, [] => false
  | a :: as, b :: bs => a == b && listPre as bs

/-- `needle` occurs as a contiguous run inside `hay`. -/
def listSub (needle hay : List Char) : Bool :=
  match hay with
  | [] => needle.isEmpty
  | _ :: t => listPre needle hay || listSub needle t

/-- Embedding of Python `needle in hay` for strings. -/
def containsStr (hay needle : String) : Bool := listSub needle.data hay.data

/-- `s` ends with `suf` (compared over reversed character lists). -/
def strEndsWith (s suf : String) : Bool := listPre suf.data.reverse s.data.reverse

/-!
## Ledger model

`update_bet_result` talks to a Google worksheet through `update_cell` and
`cell(...).value`.  The worksheet grid is embedded as a total function from
(1-based) row and column numbers to cell text, with `""` for an empty cell
(gspread returns `None` for an empty cell and the code normalises it with
`or ""`).
-/

/-- A worksheet: 1-based row/column numbers to cell contents. -/
def Sheet : Type := Nat → Nat → String

/-- Embedding of `worksheet.update_cell(r, c, v)`. -/
def setCell (ws : Sheet) (r c : Nat) (v : String) : Sheet :=
  fun r' c' => if r' = r ∧ c' = c then v else ws r' c'

/-- Embedding of `update_bet_result(row_num, result, notes, verification_details)`
(src/bot.py lines 741-756): writes Result to column M (13), appends a
`GRADED:` note to column R (18) truncated to 500 characters, and, when
`verification_details` is nonempty, writes it to column V (22). -/
def update_bet_result (ws : Sheet) (row_num : Nat)
    (result notes verification_details : String) : Sheet :=
  let ws1 := setCell ws row_num 13 result
  let existing_notes := ws1 row_num 18
  let new_notes :=
    if existing_notes ≠ "" then existing_notes ++ " | GRADED: " ++ notes
    else "GRADED: " ++ notes
  let ws2 := setCell ws1 row_num 18 (strTake new_notes 500)
  if verification_details ≠ "" then setCell ws2 row_num 22 verification_details
  else ws2

/-!
## Pending-bet scan
-/

/-- One record produced by `get_pending_bets`. -/
structure PendingBet where
  row_num : Nat
  match_date : String
  league : String
  teams_event : String
  selection : String
  bet_type : String
  odds : String
  wager : String
  potential_payout : String
deriving DecidableEq

/-- Embedding of `row[i] if len(row) > i else ""` (the guarded indexing used
for every field of a pending row). -/
def rowField (row : List String) (i : Nat) : String := row.getD i ""

/-- The record built from sheet row number `row_num` and its cells. -/
def mkPendingBet (row_num : Nat) (row : List String) : PendingBet :=
  { row_num := row_num
    match_date := rowField row 4
    league := rowField row 5
    teams_event := rowField row 6
    selection := rowField row 7
    bet_type := rowField row 8
    odds := rowField row 9
    wager := rowField row 10
    potential_payout := rowField row 11 }

/-- The loop of `get_pending_bets`: `enumerate(all_rows[1:], start=2)` with
the filter `len(row) > 12 and row[12].lower() == "pending"`. -/
def pendingScan : Nat → List (List String) → List PendingBet
  | _, [] => []
  | row_num, row :: rest =>
    if 12 < row.length ∧ strLower (rowField row 12) = "pending" then
      mkPendingBet row_num row :: pendingScan (row_num + 1) rest
    else pendingScan (row_num + 1) rest

/-- Embedding of `get_pending_bets()` (src/bot.py lines 432-453) applied to
the worksheet rows returned by `get_all_values()`. -/
def get_pending_bets (all_rows : List (List String)) : List PendingBet :=
  pendingScan 2 (all_rows.drop 1)

/-!
## Result sourcing (`search_game_result`, src/bot.py lines 456-501)
-/

/-- The substrings whose presence in the lowered selection marks a
quarter/half bet (the Python local `is_partial` check). -/
def periodMarkers : List String :=
  ["1q", "2q", "3q", "4q", "1h", "2h", "first quarter", "first half", "second half"]

/-- Embedding of the Python `is_partial` flag of `search_game_result`. -/
def hasPeriodQualifier (selection : String) : Bool :=
  periodMarkers.any (fun x => containsStr (strLower selection) x)

/-- The Tavily query string built by `search_game_result`. -/
def build_search_query (bet : PendingBet) : String :=
  if hasPeriodQualifier bet.selection then
    bet.teams_event ++ " " ++ bet.league ++ " " ++ bet.match_date ++
      " box score quarter by quarter"
  else
    bet.teams_event ++ " " ++ bet.league ++ " " ++ bet.match_date ++
      " final score result"

/-- One entry of the Tavily `results` array (only the fields the code
reads). -/
structure TavilyItem where
  title : String
  content : String
deriving DecidableEq

/-- The text assembled from a successful Tavily response: the `answer`
field when truthy, then `Source: title\ncontent\n\n` for the first three
results. -/
def tavilyText (answer : Option String) (results : List TavilyItem) : String :=
  let t0 :=
    match answer with
    | some a => if a ≠ "" then "Summary: " ++ a ++ "\n\n" else ""
    | none => ""
  (results.take 3).foldl
    (fun acc r => acc ++ "Source: " ++ r.title ++ "\n" ++ r.content ++ "\n\n") t0

/-- Embedding of `search_game_result(bet)`.  `provider` is the outcome of
the HTTP call: `.error e` when any exception with text `e` was raised
(timeout, HTTP error, bad JSON), `.ok (answer, results)` otherwise.  The
function never propagates the exception: it returns an error string, the
assembled text, or `"No results found"`. -/
def search_game_result (bet : PendingBet)
    (provider : Except String (Option String × List TavilyItem)) : String :=
  let _query := build_search_query bet
  match provider with
  | .error e => "Search error: " ++ e
  | .ok (answer, results) =>
    let result_text := tavilyText answer results
    if result_text ≠ "" then result_text else "No results found"

/-!
## Grading dicts and the consensus protocol
-/

/-- The JSON object returned by a grading pass (`grade_bet_with_search`).
A field is `none` when the key is absent from the parsed dict. -/
structure GradeDict where
  result : Option String := none
  final_score : Option String := none
  reasoning : Option String := none
  confidence : Option String := none
  verification_details : Option String := none
deriving DecidableEq

/-- The JSON object returned by the verification pass (`verify_grade`). -/
structure VerifyDict where
  verified_result : Option String := none
  actual_score : Option String := none
  your_math : Option String := none
  agrees_with_initial : Option Bool := none
  confidence : Option String := none
  verification_details : Option String := none
deriving DecidableEq

/-- Python truthiness of an optional string (`if d.get(k):`). -/
def optTruthy : Option String → Bool
  | none => false
  | some s => s ≠ ""

/-- Embedding of `verify_grade(bet, initial_grade, search_results)`
(src/bot.py lines 618-694).  `llm` is the outcome of the LLM call and JSON
parse; on an exception the code returns the fallback dict
`{"verified_result": initial.get('result'), "agrees_with_initial": True,
"confidence": "low"}`. -/
def verify_grade (initial_grade : GradeDict)
    (llm : Except String VerifyDict) : VerifyDict :=
  match llm with
  | .ok v => v
  | .error _ =>
    { verified_result := initial_grade.result
      agrees_with_initial := some true
      confidence := some "low" }

/-- The test `"error" in search_results.lower() or search_results == "No
results found"` guarding `grade_bet`. -/
def searchFailed (search_results : String) : Bool :=
  containsStr (strLower search_results) "error" || search_results = "No results found"

/-- The dict returned by `grade_bet` when the search failed. -/
def pendingNoResults : GradeDict :=
  { result := some "Pending"
    confidence := some "low"
    final_score := some ""
    reasoning := some "Could not find game results" }

/-- Embedding of `grade_bet(bet)` (src/bot.py lines 697-738) with the
search text and the two LLM passes made explicit: `initial_grade` is what
`grade_bet_with_search` returned and `llmVerify` is the outcome of the
verification call.  The value is `.ok` of the produced dict, or `.error`
when the body raises: in the agreement branch the code mutates the
initial dict in place with `initial_grade['reasoning'] += ...`, an
unguarded indexed access that raises `KeyError` when the parsed JSON has
no `reasoning` key (every other access in the function is a defensive
`.get`). -/
def grade_bet (search_results : String) (initial_grade : GradeDict)
    (llmVerify : Except String VerifyDict) : Except String GradeDict :=
  if searchFailed search_results then .ok pendingNoResults
  else if strLower (initial_grade.result.getD "") = "pending" then .ok initial_grade
  else
    let verification := verify_grade initial_grade llmVerify
    if verification.agrees_with_initial.getD false then
      match initial_grade.reasoning with
      | none => .error "KeyError: reasoning"
      | some r =>
        .ok { initial_grade with
          confidence := some "high"
          reasoning := some (r ++ " [VERIFIED: " ++
            (verification.your_math.getD "") ++ "]")
          verification_details :=
            if optTruthy verification.verification_details then
              verification.verification_details
            else initial_grade.verification_details }
    else
      .ok {
        result := some (verification.verified_result.getD "Pending")
        final_score := some (verification.actual_score.getD
          (initial_grade.final_score.getD ""))
        reasoning := some ("CORRECTED: " ++ (verification.your_math.getD ""))
        confidence := some (verification.confidence.getD "medium")
        verification_details := some (verification.verification_details.getD
          (initial_grade.verification_details.getD "")) }

/-!
## Orchestrator (`grade_command`, src/bot.py lines 828-923)

Per bet the command runs `grade_bet` and, for a non-Pending result, one
`update_bet_result` call, all inside a `try`/`except` that appends to an
error list and moves on.  `oracle bet` is the outcome of the per-bet body
up to grading: `.error e` when an exception with text `e` was raised,
`.ok g` when `grade_bet` returned the dict `g`.
-/

/-- One entry of the `graded` summary list. -/
structure GradedEntry where
  selection : String
  result : String
  confidence : String
  score : String
deriving DecidableEq

/-- One issued `update_bet_result` call, in issue order. -/
structure UpdateCall where
  row : Nat
  result : String
  notes : String
  verification_details : String
deriving DecidableEq

/-- The mutable lists accumulated by one `/grade` run. -/
structure RunState where
  graded : List GradedEntry
  errors : List String
  notFound : List String
  updates : List UpdateCall
deriving DecidableEq

/-- Concatenation of two run states, components in order. -/
def appendRun (a b : RunState) : RunState :=
  ⟨a.graded ++ b.graded, a.errors ++ b.errors,
   a.notFound ++ b.notFound, a.updates ++ b.updates⟩

/-- The contribution of one bet to the run: the body of the `for` loop of
`grade_command`. -/
def runDelta (oracle : PendingBet → Except String GradeDict)
    (bet : PendingBet) : RunState :=
  match oracle bet with
  | .error e =>
    ⟨[], [strTake bet.selection 20 ++ ": " ++ strTake e 30], [], []⟩
  | .ok grade_result =>
    let result := grade_result.result.getD "Pending"
    if strLower result = "pending" then
      let reason := grade_result.reasoning.getD ""
      if containsStr (strLower reason) "not found" ||
          containsStr (strLower reason) "unknown league" then
        ⟨[], [], ["• " ++ strTake bet.teams_event 30 ++ " (" ++ bet.league ++ ")"], []⟩
      else ⟨[], [], [], []⟩
    else
      ⟨[⟨strTake bet.selection 25, result, grade_result.confidence.getD "unknown",
          grade_result.final_score.getD "N/A"⟩],
       [], [],
       [⟨bet.row_num, result,
          (grade_result.final_score.getD "") ++ " - " ++ (grade_result.reasoning.getD ""),
          grade_result.verification_details.getD ""⟩]⟩

/-- The whole `/grade` loop over the pending bets, in input order. -/
def grade_command_run (oracle : PendingBet → Except String GradeDict) :
    List PendingBet → RunState
  | [] => ⟨[], [], [], []⟩
  | bet :: rest => appendRun (runDelta oracle bet) (grade_command_run oracle rest)

/-- Applying the run's ledger writes to a worksheet, in issue order. -/
def applyUpdates (ws : Sheet) (updates : List UpdateCall) : Sheet :=
  updates.foldl
    (fun w u => update_bet_result w u.row u.result u.notes u.verification_details) ws

/-!
## Grading rule for positive spreads

Modelled from the spec: the grading arithmetic itself is performed by an
external LLM, not by Python code; the rule below transcribes the positive
spread instructions embedded verbatim in the grading prompt of
`grade_bet_with_search` (src/bot.py lines 526-537), which coincide with
spec §4.3.  Scores are integers, the line is a rational (it usually ends
in .5).  The prompt leaves a tied game undefined; following spec §9 a tie
maps to Pending.
-/

/-- Positive-spread grading: `bet_score` is the selected team's score,
`opp_score` the opponent's, `line` the (positive) spread number. -/
def gradePositiveSpread (bet_score opp_score : ℤ) (line : ℚ) : String :=
  if opp_score < bet_score then "Win"
  else if bet_score < opp_score then
    let margin : ℚ := (opp_score : ℚ) - (bet_score : ℚ)
    if margin < line then "Win"
    else if line < margin then "Loss"
    else "Push"
  else "Pending"

/-!
## Concrete sample data for witnesses
-/

/-- The empty worksheet. -/
def wsEmpty : Sheet := fun _ _ => ""

/-- A sample pending bet used by witnesses. -/
def sampleBet : PendingBet :=
  { row_num := 7, match_date := "2025-01-02", league := "NBA"
    teams_event := "Magic @ Thunder", selection := "Magic +36.5"
    bet_type := "Spread", odds := "+110", wager := "100", potential_payout := "210" }

/-- An oracle whose every grade comes back Pending. -/
def oraclePending : PendingBet → Except String GradeDict :=
  fun _ => .ok { result := some "Pending", reasoning := some "still in progress" }

/-!
## Helper lemmas
-/

theorem str_data_append (s t : String) : (s ++ t).data = s.data ++ t.data := by
  cases s; cases t; rfl

theorem listPre_append : ∀ n h h' : List Char,
    listPre n h = true → listPre n (h ++ h') = true
  | [], _, _, _ => rfl
  | _ :: _, [], _, hp => by simp [listPre] at hp
  | a :: as, b :: bs, h', hp => by
    simp only [listPre, Bool.and_eq_true, beq_iff_eq] at hp
    simp only [List.cons_append, listPre, Bool.and_eq_true, beq_iff_eq]
    exact ⟨hp.1, listPre_append as bs h' hp.2⟩

theorem listSub_nil_needle : ∀ h : List Char, listSub [] h = true
  | [] => rfl
  | _ :: t => by simp [listSub, listPre]

theorem listSub_append : ∀ n h h' : List Char,
    listSub n h = true → listSub n (h ++ h') = true
  | n, [], h', hs => by
    simp only [listSub, List.isEmpty_iff] at hs
    subst hs
    exact listSub_nil_needle h'
  | n, c :: t, h', hs => by
    simp only [listSub, Bool.or_eq_true] at hs
    rcases hs with hs | hs
    · simp only [List.cons_append, listSub, Bool.or_eq_true]
      exact Or.inl (by simpa using listPre_append n (c :: t) h' hs)
    · simp only [List.cons_append, listSub, Bool.or_eq_true]
      exact Or.inr (listSub_append n t h' hs)

theorem listPre_cons_ne {a b : Char} (as bs : List Char) (h : (a == b) = false) :
    listPre (a :: as) (b :: bs) = false := by
  simp [listPre, h]

/-- Pointwise evaluation of one ledger write. -/
theorem update_bet_result_apply (ws : Sheet) (row_num : Nat)
    (result notes vd : String) (r c : Nat) :
    update_bet_result ws row_num result notes vd r c =
      if r = row_num ∧ c = 13 then result
      else if r = row_num ∧ c = 18 then
        strTake (if ws row_num 18 ≠ "" then ws row_num 18 ++ " | GRADED: " ++ notes
                 else "GRADED: " ++ notes) 500
      else if r = row_num ∧ c = 22 ∧ vd ≠ "" then vd
      else ws r c := by
  simp only [update_bet_result, setCell]
  simp only [show (True ∧ (18 : Nat) = 13) = False by simp, if_false]
  by_cases hr : r = row_num
  · subst hr
    by_cases h13 : c = 13
    · subst h13
      have h1322 : ¬ ((13 : Nat) = 22) := by omega
      by_cases hvd : vd = ""
      · simp [setCell, hvd]
      · simp [setCell, hvd, h1322]
    · by_cases hc18 : c = 18
      · subst hc18
        have h1822 : ¬ ((18 : Nat) = 22) := by omega
        by_cases hvd : vd = ""
        · simp [setCell, hvd, h13]
        · simp [setCell, hvd, h1822, h13]
      · by_cases hc22 : c = 22
        · subst hc22
          by_cases hvd : vd = ""
          · simp [setCell, hvd, h13, hc18]
          · simp [setCell, hvd, h13, hc18]
        · by_cases hvd : vd = ""
          · simp [setCell, hvd, h13, hc18, hc22]
          · simp [setCell, hvd, h13, hc18, hc22]
  · by_cases hvd : vd = ""
    · simp [setCell, hvd, hr]
    · simp [setCell, hvd, hr]

/-- A write to one row leaves every other row of the ledger unchanged. -/
theorem update_bet_result_other_row (ws : Sheet) (row_num : Nat)
    (result notes vd : String) (r c : Nat) (hr : r ≠ row_num) :
    update_bet_result ws row_num result notes vd r c = ws r c := by
  rw [update_bet_result_apply]
  simp [hr]

/-- A sequence of writes that all target other rows leaves a row
unchanged. -/
theorem applyUpdates_frame (updates : List UpdateCall) (ws : Sheet) (r : Nat)
    (h : ∀ u ∈ updates, u.row ≠ r) :
    ∀ c, applyUpdates ws updates r c = ws r c := by
  induction updates generalizing ws with
  | nil => intro c; rfl
  | cons u rest ih =>
    intro c
    have hu : u.row ≠ r := h u (List.mem_cons_self u rest)
    have hr : r ≠ u.row := fun hc => hu hc.symm
    calc applyUpdates ws (u :: rest) r c
        = applyUpdates (update_bet_result ws u.row u.result u.notes u.verification_details)
            rest r c := rfl
      _ = update_bet_result ws u.row u.result u.notes u.verification_details r c :=
          ih _ (fun v hv => h v (List.mem_cons_of_mem u hv)) c
      _ = ws r c := update_bet_result_other_row _ _ _ _ _ _ _ hr

/-!
## Claim theorems
-/

/-- C2 (counterexample): `update_bet_result` is not idempotent.  Starting
from the empty worksheet, writing `(row 2, "Win", "n", "v")` twice does not
leave the ledger in the state of the first write: the first call puts
`"GRADED: n"` into the notes cell, the second appends, yielding
`"GRADED: n | GRADED: n"`. -/
theorem update_bet_result_not_idempotent :
    ¬ (update_bet_result (update_bet_result wsEmpty 2 "Win" "n" "v") 2 "Win" "n" "v"
        = update_bet_result wsEmpty 2 "Win" "n" "v") := by
  intro h
  have h18 := congrFun (congrFun h 2) 18
  revert h18
  decide

/-- C2 (amended): a single `update_bet_result` call alters no cell of the
ledger outside columns M (13, Result), R (18, Notes) and V (22, Grade
Verification) of the addressed row; and a retry with identical arguments
changes at most the Notes cell of that row — every other cell, including
the Result and Verification cells it rewrites with the same values, is the
same after the second call as after the first. -/
theorem update_bet_result_frame_and_retry (ws : Sheet) (row_num : Nat)
    (result notes vd : String) :
    (∀ r c, (r ≠ row_num ∨ (c ≠ 13 ∧ c ≠ 18 ∧ c ≠ 22)) →
      update_bet_result ws row_num result notes vd r c = ws r c)
    ∧ (∀ r c, (r ≠ row_num ∨ c ≠ 18) →
      update_bet_result (update_bet_result ws row_num result notes vd)
          row_num result notes vd r c
        = update_bet_result ws row_num result notes vd r c) := by
  constructor
  · intro r c hrc
    rw [update_bet_result_apply]
    rcases hrc with hr | ⟨h13, h18, h22⟩
    · simp [hr]
    · simp [h13, h18, h22]
  · intro r c hrc
    rw [update_bet_result_apply (update_bet_result ws row_num result notes vd)
          row_num result notes vd r c,
        update_bet_result_apply ws row_num result notes vd r c]
    by_cases hr : r = row_num
    · have h18 : c ≠ 18 := hrc.resolve_left (fun hne => hne hr)
      by_cases h13 : c = 13
      · simp [hr, h13]
      · by_cases h22 : c = 22
        · by_cases hvd : vd = ""
          · simp [hr, h13, h18, h22, hvd]
          · simp [hr, h13, h18, h22, hvd]
        · simp [hr, h13, h18, h22]
    · simp [hr]

/-- C2 (witness): the amended frame/retry theorem at a concrete ledger:
a write to row 2 leaves row 3 alone, and a retried write leaves the Result
cell of row 2 as the first write left it. -/
theorem update_bet_result_frame_and_retry_witness :
    update_bet_result wsEmpty 2 "Win" "n" "v" 3 13 = wsEmpty 3 13
    ∧ update_bet_result (update_bet_result wsEmpty 2 "Win" "n" "v") 2 "Win" "n" "v" 2 13
        = update_bet_result wsEmpty 2 "Win" "n" "v" 2 13 := by
  have h := update_bet_result_frame_and_retry wsEmpty 2 "Win" "n" "v"
  exact ⟨h.1 3 13 (Or.inl (by omega)), h.2 2 13 (Or.inr (by omega))⟩

/-- C1 (counterexample): the claim as stated fails when the two passes
agree but the initial grade lacks its `reasoning` key: the in-place
mutation `initial_grade['reasoning'] += ...` raises `KeyError`, so the
consensus step raises instead of returning the initial outcome with
confidence High. -/
theorem grade_bet_consensus_counterexample :
    grade_bet "Summary: Thunder won 128-92"
        ⟨some "Win", none, none, none, none⟩
        (.ok ⟨some "Win", some "Magic 92 - Thunder 128", some "loss by 36 < 36.5",
              some true, some "high", none⟩)
      = .error "KeyError: reasoning" := rfl

/-- C1 (amended): consensus resolution for a bet whose initial grade is
not Pending.  When the verification pass reports agreement and the
initial grade carries its `reasoning` field, `grade_bet` returns normally
with the initial outcome and confidence `high`; when it reports
disagreement, it returns normally with the verification pass's
`verified_result` (defaulting to Pending when the key is missing), the
verification pass's confidence (defaulting to medium), and a rationale
that is `CORRECTED:` followed by the verification pass's arithmetic.
(When the passes agree but the initial grade has no `reasoning` field the
step raises `KeyError` instead — see the counterexample.) -/
theorem grade_bet_consensus (search_results : String) (initial_grade : GradeDict)
    (llmVerify : Except String VerifyDict)
    (hs : searchFailed search_results = false)
    (hp : strLower (initial_grade.result.getD "") ≠ "pending") :
    ((verify_grade initial_grade llmVerify).agrees_with_initial.getD false = true →
      initial_grade.reasoning.isSome = true →
      (grade_bet search_results initial_grade llmVerify).map GradeDict.result
          = .ok initial_grade.result
      ∧ (grade_bet search_results initial_grade llmVerify).map GradeDict.confidence
          = .ok (some "high"))
    ∧ ((verify_grade initial_grade llmVerify).agrees_with_initial.getD false = false →
      (grade_bet search_results initial_grade llmVerify).map GradeDict.result
          = .ok (some ((verify_grade initial_grade llmVerify).verified_result.getD "Pending"))
      ∧ (grade_bet search_results initial_grade llmVerify).map GradeDict.confidence
          = .ok (some ((verify_grade initial_grade llmVerify).confidence.getD "medium"))
      ∧ (grade_bet search_results initial_grade llmVerify).map GradeDict.reasoning
          = .ok (some ("CORRECTED: " ++
              (verify_grade initial_grade llmVerify).your_math.getD ""))) := by
  constructor
  · intro hagree hsome
    rcases hr : initial_grade.reasoning with _ | r
    · rw [hr] at hsome
      exact absurd hsome (by simp)
    · constructor <;> simp [grade_bet, hs, hp, hagree, hr, Except.map]
  · intro hdis
    refine ⟨?_, ?_, ?_⟩ <;> simp [grade_bet, hs, hp, hdis, Except.map]

/-- C1 (witness): both branches at concrete inputs.  An agreeing
verification of a Win grade that carries its rationale returns normally
with confidence `high`; a disagreeing verification (re-derived Loss)
returns normally with the verification pass's outcome. -/
theorem grade_bet_consensus_witness :
    (grade_bet "Summary: Thunder won 128-92"
        ⟨some "Win", some "Magic 92 - Thunder 128", some "36 < 36.5", some "medium", none⟩
        (.ok ⟨some "Win", some "Magic 92 - Thunder 128", some "loss by 36 < 36.5",
              some true, some "high", none⟩)).map GradeDict.confidence
      = .ok (some "high")
    ∧ (grade_bet "Summary: Thunder won 128-92"
        ⟨some "Win", some "Magic 92 - Thunder 128", some "36 < 36.5", some "medium", none⟩
        (.ok ⟨some "Loss", some "Magic 92 - Thunder 128", some "36 > 35.5", some false,
              some "low", none⟩)).map GradeDict.result = .ok (some "Loss") := by
  constructor
  · exact ((grade_bet_consensus "Summary: Thunder won 128-92"
      ⟨some "Win", some "Magic 92 - Thunder 128", some "36 < 36.5", some "medium", none⟩
      (.ok ⟨some "Win", some "Magic 92 - Thunder 128", some "loss by 36 < 36.5",
            some true, some "high", none⟩)
      (by decide) (by decide)).1 (by decide) (by decide)).2
  · exact ((grade_bet_consensus "Summary: Thunder won 128-92"
      ⟨some "Win", some "Magic 92 - Thunder 128", some "36 < 36.5", some "medium", none⟩
      (.ok ⟨some "Loss", some "Magic 92 - Thunder 128", some "36 > 35.5", some false,
            some "low", none⟩)
      (by decide) (by decide)).2 (by decide)).1

/-- C3: an initial grade whose outcome is Pending is returned unchanged
(and without raising), whatever the verification oracle would have
answered — so no verification pass influences the result. -/
theorem grade_bet_pending_short_circuit (search_results : String)
    (initial_grade : GradeDict)
    (hs : searchFailed search_results = false)
    (hp : strLower (initial_grade.result.getD "") = "pending") :
    ∀ llmVerify, grade_bet search_results initial_grade llmVerify
      = .ok initial_grade := by
  intro llmVerify
  simp [grade_bet, hs, hp]

/-- C3 (witness): a Pending initial grade passes through untouched even
when the verification oracle would have raised an exception. -/
theorem grade_bet_pending_short_circuit_witness :
    grade_bet "Summary: game tonight"
        ⟨some "Pending", some "", some "game not played yet", some "low", none⟩
        (.error "boom")
      = .ok ⟨some "Pending", some "", some "game not played yet", some "low", none⟩ :=
  grade_bet_pending_short_circuit "Summary: game tonight"
    ⟨some "Pending", some "", some "game not played yet", some "low", none⟩
    (by decide) (by decide) (.error "boom")

/-- Any search that raised an exception produces a text that trips the
`"error" in search_results.lower()` guard of `grade_bet`. -/
theorem searchFailed_of_exception (e : String) :
    searchFailed ("Search error: " ++ e) = true := by
  unfold searchFailed containsStr strLower
  rw [str_data_append, List.map_append]
  have h1 : listSub ("error").data
      (List.map Char.toLower ("Search error: ").data) = true := by decide
  rw [listSub_append _ _ _ h1]
  rfl

/-- C4: evidence sourcing never propagates an exception and the pipeline
degrades to Pending.  A provider exception `e` is returned as the text
`"Search error: " ++ e` and `grade_bet` then yields the Pending fallback
dict; an empty provider response is returned as `"No results found"` with
the same Pending fallback.  (Totality of `search_game_result` embeds the
"never throws" part: every provider outcome, timeout included, is mapped
to a string.) -/
theorem search_failure_degrades_to_pending (bet : PendingBet) (e : String)
    (initial_grade : GradeDict) (llmVerify : Except String VerifyDict) :
    search_game_result bet (.error e) = "Search error: " ++ e
    ∧ grade_bet (search_game_result bet (.error e)) initial_grade llmVerify
        = .ok pendingNoResults
    ∧ search_game_result bet (.ok (none, [])) = "No results found"
    ∧ grade_bet (search_game_result bet (.ok (none, []))) initial_grade llmVerify
        = .ok pendingNoResults := by
  refine ⟨rfl, ?_, rfl, ?_⟩
  · show grade_bet ("Search error: " ++ e) initial_grade llmVerify = .ok pendingNoResults
    simp [grade_bet, searchFailed_of_exception e]
  · show grade_bet "No results found" initial_grade llmVerify = .ok pendingNoResults
    have hf : searchFailed "No results found" = true := by decide
    simp [grade_bet, hf]

/-- C9 (counterexample): the claim as stated fails when the initial grade
lacks its `reasoning` key: the verify-exception fallback forces the
agreement branch, whose `initial_grade['reasoning'] +=` then raises
`KeyError`, so the pipeline raises instead of returning the initial
outcome with confidence `high`. -/
theorem verify_exception_reports_agreement_counterexample :
    grade_bet "Summary: Thunder won 128-92"
        ⟨some "Win", none, none, none, none⟩ (.error "timeout")
      = .error "KeyError: reasoning" := rfl

/-- C9 (amended): when the verification call itself raises an exception,
the fallback dict reports agreement with the initial grade; provided the
initial grade carries its `reasoning` field, the pipeline then returns
normally with the initial outcome and confidence `high`, although no
independent re-derivation happened.  (Without the `reasoning` field the
agreement branch raises `KeyError` instead — see the counterexample.) -/
theorem verify_exception_reports_agreement (search_results : String)
    (initial_grade : GradeDict) (e : String)
    (hs : searchFailed search_results = false)
    (hp : strLower (initial_grade.result.getD "") ≠ "pending")
    (hsome : initial_grade.reasoning.isSome = true) :
    (verify_grade initial_grade (.error e)).agrees_with_initial = some true
    ∧ (grade_bet search_results initial_grade (.error e)).map GradeDict.result
        = .ok initial_grade.result
    ∧ (grade_bet search_results initial_grade (.error e)).map GradeDict.confidence
        = .ok (some "high") := by
  rcases hr : initial_grade.reasoning with _ | r
  · rw [hr] at hsome
    exact absurd hsome (by simp)
  · refine ⟨rfl, ?_, ?_⟩ <;> simp [grade_bet, hs, hp, verify_grade, hr, Except.map]

/-- A row whose outcome column lowers to `"pending"` necessarily has more
than 12 cells, so the Python `len(row) > 12` guard is redundant within the
filter. -/
theorem pending_row_long (row : List String)
    (h : strLower (rowField row 12) = "pending") : 12 < row.length := by
  by_contra hlen
  push_neg at hlen
  have hd : rowField row 12 = "" := List.getD_eq_default _ _ hlen
  rw [hd] at h
  exact absurd h (by decide)

/-- Membership in the scan loop, for any starting row number. -/
theorem pendingScan_mem (rows : List (List String)) : ∀ (start : Nat) (b : PendingBet),
    b ∈ pendingScan start rows ↔
      ∃ i, i < rows.length
        ∧ strLower (rowField (rows.getD i []) 12) = "pending"
        ∧ b = mkPendingBet (start + i) (rows.getD i []) := by
  induction rows with
  | nil => intro start b; simp [pendingScan]
  | cons row rest ih =>
    intro start b
    by_cases hc : 12 < row.length ∧ strLower (rowField row 12) = "pending"
    · rw [pendingScan, if_pos hc]
      simp only [List.mem_cons, ih (start + 1)]
      constructor
      · rintro (rfl | ⟨i, hi, hpend, rfl⟩)
        · exact ⟨0, by simp, by simpa using hc.2, by simp⟩
        · refine ⟨i + 1, by simpa using hi, by simpa using hpend, ?_⟩
          have harith : start + 1 + i = start + (i + 1) := by omega
          simp [harith]
      · rintro ⟨i, hi, hpend, rfl⟩
        cases i with
        | zero => exact Or.inl (by simp)
        | succ j =>
          refine Or.inr ⟨j, by simpa using hi, by simpa using hpend, ?_⟩
          have harith : start + 1 + j = start + (j + 1) := by omega
          simp [harith]
    · rw [pendingScan, if_neg hc]
      rw [ih (start + 1)]
      constructor
      · rintro ⟨i, hi, hpend, rfl⟩
        refine ⟨i + 1, by simpa using hi, by simpa using hpend, ?_⟩
        have harith : start + 1 + i = start + (i + 1) := by omega
        simp [harith]
      · rintro ⟨i, hi, hpend, rfl⟩
        cases i with
        | zero =>
          exfalso
          exact hc ⟨pending_row_long row (by simpa using hpend), by simpa using hpend⟩
        | succ j =>
          refine ⟨j, by simpa using hi, by simpa using hpend, ?_⟩
          have harith : start + 1 + j = start + (j + 1) := by omega
          simp [harith]

/-- C5: `get_pending_bets` returns exactly the non-header rows whose
outcome column (M, index 12) lowers to `"pending"`, and each returned
record's `row_num` is that row's 1-based sheet row number (tail index `i`
is sheet row `2 + i`, the header being row 1), with the record's fields
read from that same row. -/
theorem get_pending_bets_spec (all_rows : List (List String)) (b : PendingBet) :
    b ∈ get_pending_bets all_rows ↔
      ∃ i, i < (all_rows.drop 1).length
        ∧ strLower (rowField ((all_rows.drop 1).getD i []) 12) = "pending"
        ∧ b = mkPendingBet (2 + i) ((all_rows.drop 1).getD i []) := by
  exact pendingScan_mem (all_rows.drop 1) 2 b

/-- C5 (witness): a two-row sheet whose single data row is Pending yields
exactly that row as a pending bet with `row_num = 2`. -/
theorem get_pending_bets_spec_witness :
    mkPendingBet 2 ["", "", "", "", "2025-01-02", "NBA", "Magic @ Thunder",
        "Magic +36.5", "Spread", "+110", "100", "210", "Pending"]
      ∈ get_pending_bets
        [["Timestamp"],
         ["", "", "", "", "2025-01-02", "NBA", "Magic @ Thunder",
          "Magic +36.5", "Spread", "+110", "100", "210", "Pending"]] := by
  rw [get_pending_bets_spec]
  exact ⟨0, by decide, by decide, by decide⟩

/-- The error-list contribution of a bet whose body raised an exception. -/
theorem runDelta_errors_err (oracle : PendingBet → Except String GradeDict)
    (bet : PendingBet) (e : String) (h : oracle bet = .error e) :
    (runDelta oracle bet).errors
      = [strTake bet.selection 20 ++ ": " ++ strTake e 30] := by
  simp [runDelta, h]

/-- A graded bet contributes nothing to the error list. -/
theorem runDelta_errors_ok (oracle : PendingBet → Except String GradeDict)
    (bet : PendingBet) (g : GradeDict) (h : oracle bet = .ok g) :
    (runDelta oracle bet).errors = [] := by
  simp only [runDelta, h]
  split
  · split <;> rfl
  · rfl

/-- A bet whose body raised an exception issues no ledger write. -/
theorem runDelta_updates_err (oracle : PendingBet → Except String GradeDict)
    (bet : PendingBet) (e : String) (h : oracle bet = .error e) :
    (runDelta oracle bet).updates = [] := by
  simp [runDelta, h]

/-- The ledger-write contribution of a graded bet: nothing when the result
is Pending, exactly one keyed update otherwise. -/
theorem runDelta_updates_ok (oracle : PendingBet → Except String GradeDict)
    (bet : PendingBet) (g : GradeDict) (h : oracle bet = .ok g) :
    (runDelta oracle bet).updates
      = (if strLower (g.result.getD "Pending") = "pending" then none
         else some (⟨bet.row_num, g.result.getD "Pending",
           (g.final_score.getD "") ++ " - " ++ (g.reasoning.getD ""),
           g.verification_details.getD ""⟩ : UpdateCall)).toList := by
  simp only [runDelta, h]
  by_cases hp : strLower (g.result.getD "Pending") = "pending"
  · rw [if_pos hp, if_pos hp]
    split <;> rfl
  · rw [if_neg hp, if_neg hp]
    rfl

/-- Error list of a whole run, as a `filterMap` over all input bets. -/
theorem run_errors_eq (oracle : PendingBet → Except String GradeDict) :
    ∀ bets, (grade_command_run oracle bets).errors
      = bets.filterMap (fun bet => match oracle bet with
          | .error e => some (strTake bet.selection 20 ++ ": " ++ strTake e 30)
          | .ok _ => none)
  | [] => rfl
  | bet :: rest => by
    show (appendRun (runDelta oracle bet) (grade_command_run oracle rest)).errors = _
    rw [List.filterMap_cons]
    rcases h : oracle bet with e | g
    · simp [appendRun, h, runDelta_errors_err oracle bet e h, run_errors_eq oracle rest]
    · simp [appendRun, h, runDelta_errors_ok oracle bet g h, run_errors_eq oracle rest]

/-- Update list of a whole run, as a `filterMap` over all input bets. -/
theorem run_updates_eq (oracle : PendingBet → Except String GradeDict) :
    ∀ bets, (grade_command_run oracle bets).updates
      = bets.filterMap (fun bet => match oracle bet with
          | .error _ => none
          | .ok g =>
            if strLower (g.result.getD "Pending") = "pending" then none
            else some (⟨bet.row_num, g.result.getD "Pending",
              (g.final_score.getD "") ++ " - " ++ (g.reasoning.getD ""),
              g.verification_details.getD ""⟩ : UpdateCall))
  | [] => rfl
  | bet :: rest => by
    show (appendRun (runDelta oracle bet) (grade_command_run oracle rest)).updates = _
    rw [List.filterMap_cons]
    rcases h : oracle bet with e | g
    · simp [appendRun, h, runDelta_updates_err oracle bet e h, run_updates_eq oracle rest]
    · have hd := runDelta_updates_ok oracle bet g h
      by_cases hp : strLower (g.result.getD "Pending") = "pending"
      · rw [if_pos hp] at hd
        simp [appendRun, h, hd, run_updates_eq oracle rest, hp]
      · rw [if_neg hp] at hd
        simp [appendRun, h, hd, run_updates_eq oracle rest, hp]

/-- C6: per-bet isolation of the `/grade` loop.  The run's error list is a
`filterMap` over the full input list — a bet whose body raised an
exception contributes exactly its recorded error entry and every other
bet, before or after it, still contributes its own outcome — and the run's
ledger writes are exactly one `update_bet_result` call for each bet graded
with a non-Pending outcome, keyed by that bet's `row_num`. -/
theorem grade_command_errors_and_updates
    (oracle : PendingBet → Except String GradeDict) (bets : List PendingBet) :
    (grade_command_run oracle bets).errors
      = bets.filterMap (fun bet => match oracle bet with
          | .error e => some (strTake bet.selection 20 ++ ": " ++ strTake e 30)
          | .ok _ => none)
    ∧ (grade_command_run oracle bets).updates
      = bets.filterMap (fun bet => match oracle bet with
          | .error _ => none
          | .ok g =>
            if strLower (g.result.getD "Pending") = "pending" then none
            else some (⟨bet.row_num, g.result.getD "Pending",
              (g.final_score.getD "") ++ " - " ++ (g.reasoning.getD ""),
              g.verification_details.getD ""⟩ : UpdateCall)) :=
  ⟨run_errors_eq oracle bets, run_updates_eq oracle bets⟩

/-- C10: a bet whose final grade is Pending (case-insensitively) gets no
ledger write: provided no other input bet addresses the same row, none of
the run's updates touches that bet's row, and replaying the whole run's
writes on any worksheet leaves every cell of that row unchanged. -/
theorem pending_result_no_ledger_write
    (oracle : PendingBet → Except String GradeDict) (bets : List PendingBet)
    (bet : PendingBet) (g : GradeDict)
    (hmem : bet ∈ bets) (hok : oracle bet = .ok g)
    (hpend : strLower (g.result.getD "Pending") = "pending")
    (hdist : ∀ b' ∈ bets, b'.row_num = bet.row_num → b' = bet) :
    (∀ u ∈ (grade_command_run oracle bets).updates, u.row ≠ bet.row_num)
    ∧ ∀ (ws : Sheet) (c : Nat),
        applyUpdates ws (grade_command_run oracle bets).updates bet.row_num c
          = ws bet.row_num c := by
  have hrow : ∀ u ∈ (grade_command_run oracle bets).updates, u.row ≠ bet.row_num := by
    intro u hu
    rw [run_updates_eq oracle bets] at hu
    rcases List.mem_filterMap.mp hu with ⟨b', hb', hfb⟩
    intro hrow_eq
    rcases hog : oracle b' with e | g'
    · rw [hog] at hfb
      exact absurd hfb (by simp)
    · rw [hog] at hfb
      have hfb2 : (if strLower (g'.result.getD "Pending") = "pending" then none
          else some (⟨b'.row_num, g'.result.getD "Pending",
            (g'.final_score.getD "") ++ " - " ++ (g'.reasoning.getD ""),
            g'.verification_details.getD ""⟩ : UpdateCall)) = some u := hfb
      by_cases hp : strLower (g'.result.getD "Pending") = "pending"
      · rw [if_pos hp] at hfb2
        exact absurd hfb2 (by simp)
      · rw [if_neg hp] at hfb2
        have hu_row : u.row = b'.row_num := by
          have hv := Option.some.inj hfb2
          rw [← hv]
        have hb'eq : b' = bet := hdist b' hb' (by rw [← hu_row, hrow_eq])
        rw [hb'eq, hok] at hog
        have hgg : g = g' := Except.ok.inj hog
        rw [← hgg] at hp
        exact hp hpend
  exact ⟨hrow, fun ws c => applyUpdates_frame _ ws bet.row_num hrow c⟩

/-- C10 (witness): a run over one bet that grades Pending leaves that
bet's row of the empty worksheet untouched. -/
theorem pending_result_no_ledger_write_witness :
    applyUpdates wsEmpty (grade_command_run oraclePending [sampleBet]).updates
        sampleBet.row_num 18
      = wsEmpty sampleBet.row_num 18 :=
  (pending_result_no_ledger_write oraclePending [sampleBet] sampleBet
      ⟨some "Pending", none, some "still in progress", none, none⟩
      (by simp) rfl (by decide)
      (by intro b' hb' _; simpa using hb')).2 wsEmpty 18

theorem str_append_assoc (a b c : String) : (a ++ b) ++ c = a ++ (b ++ c) := by
  cases a; cases b; cases c
  show String.mk _ = String.mk _
  rw [List.append_assoc]

/-- Appending a literal suffix makes `strEndsWith` succeed on it. -/
theorem strEndsWith_append (A suf : String) :
    strEndsWith (A ++ suf) suf = true := by
  unfold strEndsWith
  rw [str_data_append, List.reverse_append]
  exact listPre_append _ _ _ (by
    induction suf.data.reverse with
    | nil => rfl
    | cons c t ih => simp [listPre, ih])

/-- A query ending in `" final score result"` does not end in the
box-score phrase. -/
theorem not_endsWith_box (A : String) :
    strEndsWith (A ++ " final score result") "box score quarter by quarter" = false := by
  unfold strEndsWith
  rw [str_data_append, List.reverse_append]
  rw [show (" final score result").data.reverse
      = 't' :: (" final score result").data.reverse.tail from by decide]
  rw [List.cons_append]
  rw [show ("box score quarter by quarter").data.reverse
      = 'r' :: ("box score quarter by quarter").data.reverse.tail from by decide]
  exact listPre_cons_ne _ _ (by decide)

/-- A query ending in `" box score quarter by quarter"` does not end in
the final-score phrase. -/
theorem not_endsWith_final (A : String) :
    strEndsWith (A ++ " box score quarter by quarter") "final score result" = false := by
  unfold strEndsWith
  rw [str_data_append, List.reverse_append]
  rw [show (" box score quarter by quarter").data.reverse
      = 'r' :: (" box score quarter by quarter").data.reverse.tail from by decide]
  rw [List.cons_append]
  rw [show ("final score result").data.reverse
      = 't' :: ("final score result").data.reverse.tail from by decide]
  exact listPre_cons_ne _ _ (by decide)

/-- C7: the evidence query is the bet's teams/event, league and match date
followed by one of the two fixed phrases, and it ends with
`"box score quarter by quarter"` exactly when one of the period-qualifier
markers (1q/2q/3q/4q/1h/2h or the spelled-out quarter/half phrases) occurs
in the lowered selection text, ending with `"final score result"` exactly
otherwise. -/
theorem search_query_shape (bet : PendingBet) :
    build_search_query bet
      = bet.teams_event ++ " " ++ bet.league ++ " " ++ bet.match_date ++
          (if hasPeriodQualifier bet.selection then " box score quarter by quarter"
           else " final score result")
    ∧ (strEndsWith (build_search_query bet) "box score quarter by quarter" = true
        ↔ periodMarkers.any (fun x => containsStr (strLower bet.selection) x) = true)
    ∧ (strEndsWith (build_search_query bet) "final score result" = true
        ↔ ¬ periodMarkers.any (fun x => containsStr (strLower bet.selection) x) = true) := by
  by_cases hp : hasPeriodQualifier bet.selection = true
  · have hq : build_search_query bet
        = (bet.teams_event ++ " " ++ bet.league ++ " " ++ bet.match_date) ++
            " box score quarter by quarter" := by
      simp [build_search_query, hp]
    have hq2 : build_search_query bet
        = ((bet.teams_event ++ " " ++ bet.league ++ " " ++ bet.match_date) ++ " ") ++
            "box score quarter by quarter" := by
      rw [hq, show (" box score quarter by quarter" : String)
          = " " ++ "box score quarter by quarter" from rfl, ← str_append_assoc]
    refine ⟨by simp [build_search_query, hp], ?_, ?_⟩
    · rw [hq2, strEndsWith_append]
      simpa [hasPeriodQualifier] using hp
    · rw [hq, not_endsWith_final]
      have := hp
      simp only [hasPeriodQualifier] at this
      simp [this]
  · have hq : build_search_query bet
        = (bet.teams_event ++ " " ++ bet.league ++ " " ++ bet.match_date) ++
            " final score result" := by
      simp [build_search_query, hp]
    have hq2 : build_search_query bet
        = ((bet.teams_event ++ " " ++ bet.league ++ " " ++ bet.match_date) ++ " ") ++
            "final score result" := by
      rw [hq, show (" final score result" : String)
          = " " ++ "final score result" from rfl, ← str_append_assoc]
    refine ⟨by simp [build_search_query, hp], ?_, ?_⟩
    · rw [hq, not_endsWith_box]
      have := hp
      simp only [hasPeriodQualifier] at this
      simp [this]
    · rw [hq2, strEndsWith_append]
      have := hp
      simp only [hasPeriodQualifier] at this
      simp [this]

/-- C7 (witness): the Magic +36.5 bet has no period qualifier, so its
query ends with the final-score phrase. -/
theorem search_query_shape_witness :
    strEndsWith (build_search_query sampleBet) "final score result" = true := by
  have h := search_query_shape sampleBet
  exact h.2.2.mpr (by decide)

/-- C8: grading a positive-line spread, modelled from the grading prompt.
When the selected team lost, the bet wins when the loss margin (opponent
score minus selected score) is strictly below the absolute line, loses
when strictly above, pushes when equal; an outright win by the selected
team grades Win unconditionally. -/
theorem gradePositiveSpread_spec (bet_score opp_score : ℤ) (line : ℚ)
    (hl : 0 < line) :
    (bet_score < opp_score →
      ((((opp_score - bet_score : ℤ) : ℚ) < |line| →
          gradePositiveSpread bet_score opp_score line = "Win")
       ∧ (|line| < ((opp_score - bet_score : ℤ) : ℚ) →
          gradePositiveSpread bet_score opp_score line = "Loss")
       ∧ (((opp_score - bet_score : ℤ) : ℚ) = |line| →
          gradePositiveSpread bet_score opp_score line = "Push")))
    ∧ (opp_score < bet_score → gradePositiveSpread bet_score opp_score line = "Win") := by
  have habs : |line| = line := abs_of_pos hl
  rw [habs]
  constructor
  · intro hlost
    have hnotwin : ¬ opp_score < bet_score := by omega
    have hcast : ((opp_score - bet_score : ℤ) : ℚ)
        = (opp_score : ℚ) - (bet_score : ℚ) := by push_cast; ring
    refine ⟨?_, ?_, ?_⟩ <;> intro h <;>
      simp only [gradePositiveSpread, if_neg hnotwin, if_pos hlost] <;>
      rw [hcast] at h
    · rw [if_pos h]
    · rw [if_neg (by linarith), if_pos h]
    · rw [if_neg (by linarith), if_neg (by linarith)]
  · intro hwin
    simp [gradePositiveSpread, hwin]

/-- C8 (witness): Magic +36.5, Magic 92 – Thunder 128: the loss margin 36
is below 36.5, so the bet grades Win. -/
theorem gradePositiveSpread_spec_witness :
    (0 : ℚ) < 73 / 2 ∧ ((92 : ℤ) < 128)
    ∧ (((128 - 92 : ℤ) : ℚ) < |(73 / 2 : ℚ)|)
    ∧ gradePositiveSpread 92 128 (73 / 2) = "Win" := by
  have habs : |(73 / 2 : ℚ)| = 73 / 2 := abs_of_pos (by norm_num)
  refine ⟨by norm_num, by norm_num, by rw [habs]; norm_num, ?_⟩
  exact ((gradePositiveSpread_spec 92 128 (73 / 2) (by norm_num)).1
    (by norm_num)).1 (by rw [habs]; norm_num)

/-- C9 (witness): a concrete Win grade that carries its rationale and
whose verification call crashed is returned as Win with confidence
`high`. -/
theorem verify_exception_reports_agreement_witness :
    (grade_bet "Summary: Thunder won 128-92"
        ⟨some "Win", some "Magic 92 - Thunder 128", some "36 < 36.5", some "medium", none⟩
        (.error "timeout")).map GradeDict.result = .ok (some "Win")
    ∧ (grade_bet "Summary: Thunder won 128-92"
        ⟨some "Win", some "Magic 92 - Thunder 128", some "36 < 36.5", some "medium", none⟩
        (.error "timeout")).map GradeDict.confidence = .ok (some "high") := by
  have h := verify_exception_reports_agreement "Summary: Thunder won 128-92"
      ⟨some "Win", some "Magic 92 - Thunder 128", some "36 < 36.5", some "medium", none⟩
      "timeout" (by decide) (by decide) (by decide)
  exact ⟨h.2.1, h.2.2⟩

end BetBot
